import Mathlib

/-!
Shallow embedding of the OAuth authorization proxy of the google-task-mcp
repository: the in-memory stores of `src/oauth/storage.ts`, the request
handlers of `src/oauth/handlers/{authorize,callback,token,register}.ts`,
and the persistent token-store API.  JavaScript `Map` objects are embedded
as association lists over `String` keys; `Date.now()` is an explicit `Int`
millisecond parameter; the network round trips to the upstream provider are
explicit `ExchangeResult` parameters; the random strings minted by
`generateRandomString` are explicit parameters.
-/

set_option maxRecDepth 4000

namespace GTasks

/-! ## Association-list embedding of the JavaScript `Map` objects -/

/-- Lookup in an association list: the first binding of the key, mirroring
`Map.get` (keys are kept unique by `aset`/`adel`). -/
def aget {α : Type} (m : List (String × α)) (k : String) : Option α :=
  match m with
  | [] => none
  | (k2, v) :: rest => if k2 = k then some v else aget rest k

/-- Deletion of every binding of a key, mirroring `Map.delete`. -/
def adel {α : Type} (m : List (String × α)) (k : String) : List (String × α) :=
  m.filter (fun p => decide (p.1 ≠ k))

/-- Insertion or overwrite of a binding, mirroring `Map.set`. -/
def aset {α : Type} (m : List (String × α)) (k : String) (v : α) :
    List (String × α) :=
  (k, v) :: adel m k

theorem aget_cons {α : Type} (hd : String × α) (tl : List (String × α))
    (k : String) :
    aget (hd :: tl) k = if hd.1 = k then some hd.2 else aget tl k := rfl

theorem adel_cons {α : Type} (hd : String × α) (tl : List (String × α))
    (k : String) :
    adel (hd :: tl) k = if hd.1 = k then adel tl k else hd :: adel tl k := by
  by_cases h : hd.1 = k <;> simp [adel, h]

theorem aget_adel_self {α : Type} (m : List (String × α)) (k : String) :
    aget (adel m k) k = none := by
  induction m with
  | nil => rfl
  | cons hd tl ih =>
    rw [adel_cons]
    by_cases h : hd.1 = k
    · rw [if_pos h]; exact ih
    · rw [if_neg h, aget_cons, if_neg h]; exact ih

theorem aget_adel_ne {α : Type} (m : List (String × α)) {k k2 : String}
    (h : k2 ≠ k) : aget (adel m k) k2 = aget m k2 := by
  induction m with
  | nil => rfl
  | cons hd tl ih =>
    rw [adel_cons]
    by_cases hk : hd.1 = k
    · have h2 : hd.1 ≠ k2 := by rw [hk]; exact fun hc => h hc.symm
      rw [if_pos hk, aget_cons, if_neg h2]; exact ih
    · rw [if_neg hk, aget_cons, aget_cons]
      by_cases h2 : hd.1 = k2
      · rw [if_pos h2, if_pos h2]
      · rw [if_neg h2, if_neg h2]; exact ih

theorem aget_aset_self {α : Type} (m : List (String × α)) (k : String) (v : α) :
    aget (aset m k v) k = some v := by
  simp [aset, aget]

theorem aget_aset_ne {α : Type} (m : List (String × α)) (v : α) {k k2 : String}
    (h : k2 ≠ k) : aget (aset m k v) k2 = aget m k2 := by
  have hne : k ≠ k2 := fun hc => h hc.symm
  rw [aset, aget_cons, if_neg hne]
  exact aget_adel_ne m h

theorem aget_adel_some {α : Type} {m : List (String × α)} {k k2 : String}
    {v : α} (h : aget (adel m k) k2 = some v) :
    k2 ≠ k ∧ aget m k2 = some v := by
  by_cases hk : k2 = k
  · rw [hk, aget_adel_self] at h
    exact absurd h (by simp)
  · exact ⟨hk, by rwa [aget_adel_ne m hk] at h⟩

theorem filter_val_cons {α : Type} (P : α → Bool) (hd : String × α)
    (tl : List (String × α)) :
    (hd :: tl).filter (fun p => P p.2)
      = if P hd.2 then hd :: tl.filter (fun p => P p.2)
        else tl.filter (fun p => P p.2) := by
  by_cases h : P hd.2 <;> simp [List.filter, h]

/-- A value surviving a value-filter satisfies the filter predicate. -/
theorem aget_filter_some {α : Type} (P : α → Bool) {m : List (String × α)}
    {k : String} {v : α}
    (h : aget (m.filter (fun p => P p.2)) k = some v) : P v = true := by
  induction m with
  | nil => exact absurd h (by simp [aget])
  | cons hd tl ih =>
    rw [filter_val_cons] at h
    by_cases hP : P hd.2
    · rw [if_pos hP, aget_cons] at h
      by_cases hk : hd.1 = k
      · rw [if_pos hk] at h
        have : hd.2 = v := by injection h
        rwa [← this]
      · rw [if_neg hk] at h
        exact ih h
    · rw [if_neg hP] at h
      exact ih h

/-- A binding kept by a value-filter is still found under its key. -/
theorem aget_filter_of_aget {α : Type} (P : α → Bool) {m : List (String × α)}
    {k : String} {v : α} (h : aget m k = some v) (hv : P v = true) :
    aget (m.filter (fun p => P p.2)) k = some v := by
  induction m with
  | nil => exact absurd h (by simp [aget])
  | cons hd tl ih =>
    rw [aget_cons] at h
    rw [filter_val_cons]
    by_cases hk : hd.1 = k
    · rw [if_pos hk] at h
      have hv2 : hd.2 = v := by injection h
      rw [if_pos (hv2 ▸ hv), aget_cons, if_pos hk, hv2]
    · rw [if_neg hk] at h
      by_cases hP : P hd.2
      · rw [if_pos hP, aget_cons, if_neg hk]
        exact ih h
      · rw [if_neg hP]
        exact ih h

/-! ## Data model (`src/oauth/types.ts`) -/

/-- JavaScript truthiness of an optional string request parameter:
`undefined`/`null` and the empty string are falsy. -/
def truthy (o : Option String) : Bool :=
  match o with
  | none => false
  | some s => decide (s ≠ "")

/-- A JSON value as far as the embedded handlers inspect one.  Arrays are
restricted to arrays of strings, the only shape the source produces or
consumes (`redirect_uris`). -/
inductive JsonValue where
  | str (s : String)
  | num (n : Int)
  | bool (b : Bool)
  | null
  | arr (xs : List String)
deriving DecidableEq

/-- `PendingAuthorization` of `src/oauth/types.ts`. -/
structure PendingAuthorization where
  chatgptRedirectUri : String
  chatgptState : String
  codeChallenge : Option String := none
  codeChallengeMethod : Option String := none
  googleCode : Option String := none
  ourCode : Option String := none
  createdAt : Int
deriving DecidableEq

/-- `RegisteredClient` of `src/oauth/types.ts` (`client_name` keeps the raw
JSON value the unchecked cast lets through). -/
structure RegisteredClient where
  client_id : String
  client_secret : String
  redirect_uris : List String
  client_name : Option JsonValue := none
  created_at : Int
deriving DecidableEq

/-- `StoredTokenData` of `src/oauth/types.ts`. -/
structure StoredTokenData where
  accessToken : String
  refreshToken : String
  expiresAt : Int
  createdAt : Int
deriving DecidableEq

/-- `OAuthConfig` of `src/oauth/types.ts`. -/
structure OAuthConfig where
  googleClientId : String
  googleClientSecret : String
  serverBaseUrl : String
deriving DecidableEq

/-- The four module-level `Map`s of `src/oauth/storage.ts`. -/
structure Store where
  pendingAuthorizations : List (String × PendingAuthorization) := []
  codeToAuthorization : List (String × PendingAuthorization) := []
  registeredClients : List (String × RegisteredClient) := []
  tokenStore : List (String × StoredTokenData) := []
deriving DecidableEq

def emptyStore : Store := {}

/-- The token fields the upstream exchange (`oauth2Client.getToken` /
`refreshAccessToken`) returns. -/
structure GoogleTokens where
  access_token : Option String := none
  refresh_token : Option String := none
  scope : Option String := none
  expiry_date : Option Int := none
deriving DecidableEq

/-- Outcome of the external network round trip to the upstream provider:
either the token payload or the thrown error message. -/
inductive ExchangeResult where
  | ok (tokens : GoogleTokens)
  | err (message : String)
deriving DecidableEq

/-- An HTTP response as the handlers build one: `jsonResponse`, a plain-text
`Response`, or a 302 redirect with a `Location` header. -/
inductive HResponse where
  | json (fields : List (String × JsonValue)) (status : Nat)
  | text (body : String) (status : Nat)
  | redirect (location : String)
deriving DecidableEq

/-- HTTP status of a response (a redirect is emitted with status 302). -/
def HResponse.status : HResponse → Nat
  | .json _ s => s
  | .text _ s => s
  | .redirect _ => 302

/-- JSON encoding of an optional string field; `.null` stands for a field
whose value was `undefined`. -/
def optStrJson (o : Option String) : JsonValue :=
  match o with
  | some s => .str s
  | none => .null

/-! ## Storage constants and the persistent token-store API
(`src/oauth/storage.ts`) -/

def AUTHORIZATION_TTL_MS : Int := 10 * 60 * 1000

def TOKEN_DATA_TTL_MS : Int := 30 * 24 * 60 * 60 * 1000

/-- `storeTokenData` of `src/oauth/storage.ts` (the file write it triggers is
outside the embedding). -/
def storeTokenData (accessToken refreshToken : String) (expiresInSeconds : Int)
    (now : Int) (ts : List (String × StoredTokenData)) :
    List (String × StoredTokenData) :=
  aset ts accessToken
    { accessToken := accessToken, refreshToken := refreshToken,
      expiresAt := now + expiresInSeconds * 1000, createdAt := now }

/-- `getTokenData` of `src/oauth/storage.ts`. -/
def getTokenData (accessToken : String) (ts : List (String × StoredTokenData)) :
    Option StoredTokenData :=
  aget ts accessToken

/-- `updateAccessToken` of `src/oauth/storage.ts`: migrate the record to the
new key, updating only `accessToken` and `expiresAt`. -/
def updateAccessToken (oldAccessToken newAccessToken : String)
    (expiresInSeconds : Int) (now : Int)
    (ts : List (String × StoredTokenData)) :
    List (String × StoredTokenData) :=
  match aget ts oldAccessToken with
  | none => ts
  | some data =>
      aset (adel ts oldAccessToken) newAccessToken
        { data with accessToken := newAccessToken,
                    expiresAt := now + expiresInSeconds * 1000 }

/-- The token-store part of the one-minute `setInterval` sweep of
`src/oauth/storage.ts`: delete every record with
`now - data.createdAt > TOKEN_DATA_TTL_MS`. -/
def sweepTokenStore (now : Int) (ts : List (String × StoredTokenData)) :
    List (String × StoredTokenData) :=
  ts.filter (fun p => decide (now - p.2.createdAt ≤ TOKEN_DATA_TTL_MS))

/-- `loadTokenStore` of `src/oauth/storage.ts`: iterate the persisted
entries into the empty in-memory map, skipping every record with
`now - value.createdAt > TOKEN_DATA_TTL_MS`. -/
def loadTokenStore (now : Int) (data : List (String × StoredTokenData)) :
    List (String × StoredTokenData) :=
  data.filter (fun p => decide (now - p.2.createdAt ≤ TOKEN_DATA_TTL_MS))

/-! ## Endpoint handlers -/

/-- Abstraction of the upstream authorization URL the external library call
`oauth2Client.generateAuthUrl` builds in `handleAuthorize`: deterministic in
the configured client and the forwarded `state`. -/
def googleAuthUrl (cfg : OAuthConfig) (state : String) : String :=
  "https://accounts.google.com/o/oauth2/v2/auth?client_id="
    ++ cfg.googleClientId ++ "&redirect_uri=" ++ cfg.serverBaseUrl
    ++ "/callback&state=" ++ state

/-- `handleAuthorize` of `src/oauth/handlers/authorize.ts`.  Query
parameters are `Option String` (`params.get` returns `null` for an absent
parameter); `now` is `Date.now()`. -/
def mkPendingAuthorization
    (redirectUri state codeChallenge codeChallengeMethod : Option String)
    (now : Int) : PendingAuthorization :=
  { chatgptRedirectUri := redirectUri.getD ""
    chatgptState := state.getD ""
    codeChallenge := codeChallenge
    codeChallengeMethod := codeChallengeMethod
    createdAt := now }

def handleAuthorize (cfg : OAuthConfig)
    (redirectUri state codeChallenge codeChallengeMethod : Option String)
    (now : Int) (σ : Store) : HResponse × Store :=
  if truthy redirectUri = false then
    (.json [("error", .str "missing_redirect_uri")] 400, σ)
  else if truthy state = false then
    (.json [("error", .str "missing_state")] 400, σ)
  else
    (.redirect (googleAuthUrl cfg (state.getD "")),
     { σ with
        pendingAuthorizations :=
          aset σ.pendingAuthorizations (state.getD "")
            (mkPendingAuthorization redirectUri state codeChallenge
              codeChallengeMethod now) })

/-- Abstraction of the redirect URL `handleCallback` builds with the `URL`
API: the client redirect URI with `code` and `state` query parameters set. -/
def clientRedirectUrl (base code state : String) : String :=
  base ++ "?code=" ++ code ++ "&state=" ++ state

/-- `handleCallback` of `src/oauth/handlers/callback.ts`.  `mintedCode` is
the `generateRandomString 32` result.  The source mutates the looked-up
record in place, which both maps alias; the embedding writes the updated
record back under both keys. -/
def handleCallback (error code state : Option String) (mintedCode : String)
    (σ : Store) : HResponse × Store :=
  if truthy error then
    (.text ("Authorization failed: " ++ error.getD "") 400, σ)
  else if !truthy code || !truthy state then
    (.text "Missing code or state" 400, σ)
  else
    match aget σ.pendingAuthorizations (state.getD "") with
    | none => (.text "Invalid or expired state" 400, σ)
    | some pendingAuth =>
        (.redirect (clientRedirectUrl pendingAuth.chatgptRedirectUri
            mintedCode pendingAuth.chatgptState),
         { σ with
            pendingAuthorizations :=
              aset σ.pendingAuthorizations (state.getD "")
                { pendingAuth with
                    googleCode := some (code.getD "")
                    ourCode := some mintedCode }
            codeToAuthorization :=
              aset σ.codeToAuthorization mintedCode
                { pendingAuth with
                    googleCode := some (code.getD "")
                    ourCode := some mintedCode } })

/-- `expires_in` computation of the token handlers:
`tokens.expiry_date ? Math.floor((tokens.expiry_date - Date.now()) / 1000) : 3600`
(an `expiry_date` of `0` is falsy). -/
def expiresInOf (expiryDate : Option Int) (now : Int) : Int :=
  match expiryDate with
  | none => 3600
  | some d => if d = 0 then 3600 else (d - now).fdiv 1000

/-- `handleAuthorizationCodeGrant` of `src/oauth/handlers/token.ts`.  The
upstream `oauth2Client.getToken` round trip is the `exchange` parameter; the
`try`/`catch` around it maps to the two `ExchangeResult` cases.  Note: the
success path deletes the pending authorization from both maps and returns
the tokens, but never touches the token store. -/
def handleAuthorizationCodeGrant (body : List (String × String))
    (_cfg : OAuthConfig) (exchange : ExchangeResult) (now : Int) (σ : Store) :
    HResponse × Store :=
  if truthy (aget body "code") = false then
    (.json [("error", .str "missing_code")] 400, σ)
  else
    match aget σ.codeToAuthorization ((aget body "code").getD "") with
    | none => (.json [("error", .str "invalid_grant")] 400, σ)
    | some pendingAuth =>
        if truthy pendingAuth.googleCode = false then
          (.json [("error", .str "invalid_grant")] 400, σ)
        else
          match exchange with
          | .err msg =>
              (.json [("error", .str "invalid_grant"),
                      ("error_description", .str msg)] 400, σ)
          | .ok tokens =>
              (.json [("access_token", optStrJson tokens.access_token),
                      ("token_type", .str "Bearer"),
                      ("expires_in", .num (expiresInOf tokens.expiry_date now)),
                      ("refresh_token", optStrJson tokens.refresh_token),
                      ("scope", optStrJson tokens.scope)] 200,
               { σ with
                  codeToAuthorization :=
                    adel σ.codeToAuthorization ((aget body "code").getD "")
                  pendingAuthorizations :=
                    adel σ.pendingAuthorizations pendingAuth.chatgptState })

/-- `handleRefreshTokenGrant` of `src/oauth/handlers/token.ts`.  The
`refreshAccessToken` round trip is the `refreshExchange` parameter.  The
`refresh_token` field is spread into the response only when the provider
returned a truthy one. -/
def handleRefreshTokenGrant (body : List (String × String))
    (_cfg : OAuthConfig) (refreshExchange : ExchangeResult) (now : Int)
    (σ : Store) : HResponse × Store :=
  if truthy (aget body "refresh_token") = false then
    (.json [("error", .str "missing_refresh_token")] 400, σ)
  else
    match refreshExchange with
    | .err msg =>
        (.json [("error", .str "invalid_grant"),
                ("error_description", .str msg)] 400, σ)
    | .ok credentials =>
        (.json ([("access_token", optStrJson credentials.access_token),
                 ("token_type", .str "Bearer"),
                 ("expires_in", .num (expiresInOf credentials.expiry_date now))]
                ++ (if truthy credentials.refresh_token then
                      [("refresh_token", optStrJson credentials.refresh_token)]
                    else [])) 200, σ)

/-- Character-list helper for `String.includes`: does the second list start
with the first? -/
def startsWithChars : List Char → List Char → Bool
  | [], _ => true
  | _ :: _, [] => false
  | a :: as, b :: bs => a == b && startsWithChars as bs

/-- Character-list helper for `String.includes`: does the pattern occur
anywhere in the haystack? -/
def hasSubChars (pat : List Char) : List Char → Bool
  | [] => pat.isEmpty
  | b :: bs => startsWithChars pat (b :: bs) || hasSubChars pat bs

/-- `hay.includes(pat)` of JavaScript. -/
def containsSub (hay pat : String) : Bool :=
  hasSubChars pat.toList hay.toList

/-- Body parsing of `handleToken`: a JSON body when the `Content-Type`
header includes `application/json`, the form fields when it includes
`application/x-www-form-urlencoded`, and the empty body otherwise (an
absent header behaves as the empty string). -/
def parseTokenBody (contentType : Option String)
    (jsonBody formBody : List (String × String)) : List (String × String) :=
  let ct := contentType.getD ""
  if containsSub ct "application/json" then jsonBody
  else if containsSub ct "application/x-www-form-urlencoded" then formBody
  else []

/-- `handleToken` of `src/oauth/handlers/token.ts`: parse the body by
content type, then dispatch on `grant_type`. -/
def handleToken (cfg : OAuthConfig) (contentType : Option String)
    (jsonBody formBody : List (String × String))
    (exchange refreshExchange : ExchangeResult) (now : Int) (σ : Store) :
    HResponse × Store :=
  match aget (parseTokenBody contentType jsonBody formBody) "grant_type" with
  | some "authorization_code" =>
      handleAuthorizationCodeGrant (parseTokenBody contentType jsonBody formBody)
        cfg exchange now σ
  | some "refresh_token" =>
      handleRefreshTokenGrant (parseTokenBody contentType jsonBody formBody)
        cfg refreshExchange now σ
  | _ => (.json [("error", .str "unsupported_grant_type")] 400, σ)

/-- The 201 payload of `handleClientRegistration`; an absent `client_name`
is dropped by `JSON.stringify`. -/
def registrationPayload (clientId clientSecret : String) (now : Int)
    (uris : List String) (clientName : Option JsonValue) :
    List (String × JsonValue) :=
  [("client_id", .str clientId),
   ("client_secret", .str clientSecret),
   ("client_id_issued_at", .num (now.fdiv 1000)),
   ("client_secret_expires_at", .num 0),
   ("redirect_uris", .arr uris)]
  ++ (match clientName with
      | some v => [("client_name", v)]
      | none => [])
  ++ [("token_endpoint_auth_method", .str "client_secret_post")]

/-- `handleClientRegistration` of `src/oauth/handlers/register.ts`.
`body` is `none` when `req.json()` throws; `mintedClientId` and
`mintedSecret` are the generated credentials (the source prefixes the id
with a fixed tag before storing, folded into the parameter).  The check
`!redirectUris || !Array.isArray(redirectUris) || redirectUris.length === 0`
rejects exactly everything but a non-empty array, since a JSON array is
always truthy. -/
def handleClientRegistration (body : Option (List (String × JsonValue)))
    (mintedClientId mintedSecret : String) (now : Int) (σ : Store) :
    HResponse × Store :=
  match body with
  | none =>
      (.json [("error", .str "invalid_request"),
              ("error_description", .str "Invalid JSON body")] 400, σ)
  | some b =>
      match aget b "redirect_uris" with
      | some (.arr (u :: us)) =>
          let clientName := aget b "client_name"
          let client : RegisteredClient :=
            { client_id := mintedClientId, client_secret := mintedSecret,
              redirect_uris := u :: us, client_name := clientName,
              created_at := now }
          (.json (registrationPayload mintedClientId mintedSecret now
              (u :: us) clientName) 201,
           { σ with
              registeredClients :=
                aset σ.registeredClients mintedClientId client })
      | _ =>
          (.json [("error", .str "invalid_request"),
                  ("error_description", .str "redirect_uris required")] 400, σ)

/-! ## Reachability of store states under the three OAuth-flow handlers -/

/-- One handler invocation, as it affects the shared maps.  The callback
step carries the real freshness guarantee of `generateRandomString`: the
minted proxy code is not already a key of the code map. -/
inductive Step : Store → Store → Prop where
  | authorize (cfg : OAuthConfig)
      (redirectUri state codeChallenge codeChallengeMethod : Option String)
      (now : Int) (σ : Store) :
      Step σ (handleAuthorize cfg redirectUri state codeChallenge
        codeChallengeMethod now σ).2
  | callback (error code state : Option String) (mintedCode : String)
      (σ : Store) (hfresh : aget σ.codeToAuthorization mintedCode = none) :
      Step σ (handleCallback error code state mintedCode σ).2
  | token (cfg : OAuthConfig) (contentType : Option String)
      (jsonBody formBody : List (String × String))
      (exchange refreshExchange : ExchangeResult) (now : Int) (σ : Store) :
      Step σ (handleToken cfg contentType jsonBody formBody exchange
        refreshExchange now σ).2

/-- Stores reachable from the empty module-initialization state by any
sequence of authorize, callback, and token steps. -/
inductive Reachable : Store → Prop where
  | init : Reachable emptyStore
  | step {σ σ2 : Store} : Reachable σ → Step σ σ2 → Reachable σ2

/-- Every pending authorization is keyed by its own client state. -/
def KeyedByState (σ : Store) : Prop :=
  ∀ s p, aget σ.pendingAuthorizations s = some p → p.chatgptState = s

/-- Whenever a pending record carries a proxy code, the code-keyed map
resolves that code to the very same record. -/
def CodeCoherent (σ : Store) : Prop :=
  ∀ s p c, aget σ.pendingAuthorizations s = some p → p.ourCode = some c →
    aget σ.codeToAuthorization c = some p

def StoreInv (σ : Store) : Prop := KeyedByState σ ∧ CodeCoherent σ

theorem storeInv_empty : StoreInv emptyStore := by
  constructor
  · intro s p h
    exact absurd h (by simp [emptyStore, aget])
  · intro s p c h
    exact absurd h (by simp [emptyStore, aget])

theorem storeInv_handleAuthorize (cfg : OAuthConfig)
    (redirectUri state codeChallenge codeChallengeMethod : Option String)
    (now : Int) (σ : Store) (hinv : StoreInv σ) :
    StoreInv (handleAuthorize cfg redirectUri state codeChallenge
      codeChallengeMethod now σ).2 := by
  obtain ⟨hA, hC⟩ := hinv
  unfold handleAuthorize
  split
  · exact ⟨hA, hC⟩
  · split
    · exact ⟨hA, hC⟩
    · dsimp only
      constructor
      · intro s p hp
        by_cases hs : s = state.getD ""
        · subst hs
          rw [aget_aset_self] at hp
          injection hp with hp
          rw [← hp]
          rfl
        · rw [aget_aset_ne _ _ hs] at hp
          exact hA s p hp
      · intro s p c hp hc
        by_cases hs : s = state.getD ""
        · subst hs
          rw [aget_aset_self] at hp
          injection hp with hp
          rw [← hp] at hc
          exact absurd hc (by simp [mkPendingAuthorization])
        · rw [aget_aset_ne _ _ hs] at hp
          exact hC s p c hp hc

theorem storeInv_handleCallback (error code state : Option String)
    (mintedCode : String) (σ : Store)
    (hfresh : aget σ.codeToAuthorization mintedCode = none)
    (hinv : StoreInv σ) :
    StoreInv (handleCallback error code state mintedCode σ).2 := by
  obtain ⟨hA, hC⟩ := hinv
  unfold handleCallback
  split
  · exact ⟨hA, hC⟩
  · split
    · exact ⟨hA, hC⟩
    · split
      · exact ⟨hA, hC⟩
      · next pendingAuth hlook =>
        have hkey : pendingAuth.chatgptState = state.getD "" :=
          hA _ _ hlook
        dsimp only
        constructor
        · intro s p hp
          by_cases hs : s = state.getD ""
          · subst hs
            rw [aget_aset_self] at hp
            injection hp with hp
            rw [← hp]
            exact hkey
          · rw [aget_aset_ne _ _ hs] at hp
            exact hA s p hp
        · intro s p c hp hc
          by_cases hs : s = state.getD ""
          · subst hs
            rw [aget_aset_self] at hp
            injection hp with hp
            rw [← hp] at hc
            simp only [Option.some.injEq] at hc
            rw [← hc, ← hp, aget_aset_self]
          · rw [aget_aset_ne _ _ hs] at hp
            have hold := hC s p c hp hc
            by_cases hcm : c = mintedCode
            · rw [hcm] at hold
              rw [hold] at hfresh
              exact absurd hfresh (by simp)
            · rw [aget_aset_ne _ _ hcm]
              exact hold

theorem storeInv_handleAuthCodeGrant (body : List (String × String))
    (cfg : OAuthConfig) (exchange : ExchangeResult) (now : Int) (σ : Store)
    (hinv : StoreInv σ) :
    StoreInv (handleAuthorizationCodeGrant body cfg exchange now σ).2 := by
  obtain ⟨hA, hC⟩ := hinv
  unfold handleAuthorizationCodeGrant
  split
  · exact ⟨hA, hC⟩
  · split
    · exact ⟨hA, hC⟩
    · next pendingAuth hlook =>
      split
      · exact ⟨hA, hC⟩
      · split
        · exact ⟨hA, hC⟩
        · dsimp only
          constructor
          · intro s p hp
            obtain ⟨_, hp2⟩ := aget_adel_some hp
            exact hA s p hp2
          · intro s p c hp hc
            obtain ⟨hs, hp2⟩ := aget_adel_some hp
            have hold := hC s p c hp2 hc
            by_cases hcc : c = (aget body "code").getD ""
            · rw [hcc] at hold
              rw [hold] at hlook
              injection hlook with hlook
              have hst : pendingAuth.chatgptState = s := by
                rw [← hlook]
                exact hA s p hp2
              exact absurd hst.symm hs
            · rw [aget_adel_ne _ hcc]
              exact hold

theorem storeInv_handleRefreshGrant (body : List (String × String))
    (cfg : OAuthConfig) (refreshExchange : ExchangeResult) (now : Int)
    (σ : Store) (hinv : StoreInv σ) :
    StoreInv (handleRefreshTokenGrant body cfg refreshExchange now σ).2 := by
  unfold handleRefreshTokenGrant
  split
  · exact hinv
  · split
    · exact hinv
    · exact hinv

theorem storeInv_handleToken (cfg : OAuthConfig) (contentType : Option String)
    (jsonBody formBody : List (String × String))
    (exchange refreshExchange : ExchangeResult) (now : Int) (σ : Store)
    (hinv : StoreInv σ) :
    StoreInv (handleToken cfg contentType jsonBody formBody exchange
      refreshExchange now σ).2 := by
  unfold handleToken
  split
  · exact storeInv_handleAuthCodeGrant _ cfg exchange now σ hinv
  · exact storeInv_handleRefreshGrant _ cfg refreshExchange now σ hinv
  · exact hinv

theorem storeInv_step {σ σ2 : Store} (h : Step σ σ2) (hinv : StoreInv σ) :
    StoreInv σ2 := by
  cases h with
  | authorize cfg ru st cc ccm now =>
      exact storeInv_handleAuthorize cfg ru st cc ccm now σ hinv
  | callback er co st mc σ1 hfresh =>
      exact storeInv_handleCallback er co st mc σ hfresh hinv
  | token cfg ct jb fb ex rex now =>
      exact storeInv_handleToken cfg ct jb fb ex rex now σ hinv

theorem storeInv_reachable {σ : Store} (h : Reachable σ) : StoreInv σ := by
  induction h with
  | init => exact storeInv_empty
  | step hr hs ih => exact storeInv_step hs ih

/-! ## Concrete fixtures shared by the claim witnesses -/

def cfg0 : OAuthConfig :=
  { googleClientId := "cid", googleClientSecret := "csecret",
    serverBaseUrl := "https://proxy.example" }

/-- A pending authorization as the callback endpoint leaves it: upstream
code and proxy code attached. -/
def exPending : PendingAuthorization :=
  { chatgptRedirectUri := "https://client.example/cb", chatgptState := "s1",
    googleCode := some "gc1", ourCode := some "pc1", createdAt := 0 }

/-- The store right after the callback issued proxy code `pc1` for state
`s1`. -/
def exStore : Store :=
  { pendingAuthorizations := [("s1", exPending)],
    codeToAuthorization := [("pc1", exPending)] }

def exBody : List (String × String) :=
  [("grant_type", "authorization_code"), ("code", "pc1")]

def exTokens : GoogleTokens :=
  { access_token := some "at1", refresh_token := some "rt1",
    scope := some "tasks", expiry_date := some 3600000 }

/-! ## Claim theorems -/

/-- C1: the claim says a successful authorization_code exchange persists a
`StoredTokenData` record keyed by the newly minted access token, so that
`getTokenData` on that token afterwards returns it.  Evaluating the handler
at a concrete successful exchange shows the token response is returned but
the token store is untouched: `getTokenData "at1"` yields `none`.  This
contradicts the repository documentation (ROADMAP.md: the token handler
calls `storeTokenData()` after code exchange), so the code, not the claim,
is at fault. -/
theorem c1_success_exchange_persists_nothing :
    (handleAuthorizationCodeGrant exBody cfg0 (.ok exTokens) 0 exStore).1
      = HResponse.json
          [("access_token", .str "at1"), ("token_type", .str "Bearer"),
           ("expires_in", .num 3600), ("refresh_token", .str "rt1"),
           ("scope", .str "tasks")] 200
    ∧ getTokenData "at1"
        (handleAuthorizationCodeGrant exBody cfg0 (.ok exTokens) 0
          exStore).2.tokenStore = none
    ∧ (handleAuthorizationCodeGrant exBody cfg0 (.ok exTokens) 0
        exStore).2.tokenStore = [] := by
  decide

/-- C2: a proxy-issued code is single-use.  After one successful
authorization_code exchange the record is deleted from both the code-keyed
and the state-keyed map, and a second exchange attempt with the same code
(whatever its upstream outcome) gets a 400 `invalid_grant` response. -/
theorem c2_proxy_code_single_use (σ : Store) (cfg cfg2 : OAuthConfig)
    (body body2 : List (String × String)) (c : String)
    (p : PendingAuthorization) (tokens : GoogleTokens)
    (exc2 : ExchangeResult) (now now2 : Int)
    (hbody : aget body "code" = some c) (hc : c ≠ "")
    (hbody2 : aget body2 "code" = some c)
    (hlook : aget σ.codeToAuthorization c = some p)
    (hg : truthy p.googleCode = true) :
    aget (handleAuthorizationCodeGrant body cfg (.ok tokens) now
      σ).2.codeToAuthorization c = none
    ∧ aget (handleAuthorizationCodeGrant body cfg (.ok tokens) now
        σ).2.pendingAuthorizations p.chatgptState = none
    ∧ (handleAuthorizationCodeGrant body2 cfg2 exc2 now2
        (handleAuthorizationCodeGrant body cfg (.ok tokens) now σ).2).1
      = HResponse.json [("error", .str "invalid_grant")] 400 := by
  have ht : truthy (some c) = true := by simp [truthy, hc]
  have hσ2 : (handleAuthorizationCodeGrant body cfg (.ok tokens) now σ).2
      = { σ with
            codeToAuthorization := adel σ.codeToAuthorization c
            pendingAuthorizations :=
              adel σ.pendingAuthorizations p.chatgptState } := by
    simp [handleAuthorizationCodeGrant, hbody, ht, hlook, hg]
  refine ⟨?_, ?_, ?_⟩
  · rw [hσ2]
    exact aget_adel_self _ _
  · rw [hσ2]
    exact aget_adel_self _ _
  · rw [hσ2]
    have hnone : aget (adel σ.codeToAuthorization c) c = none :=
      aget_adel_self _ _
    simp [handleAuthorizationCodeGrant, hbody2, ht, hnone]

/-- C2 witness: the concrete post-callback store `exStore` with proxy code
`pc1`. -/
theorem c2_proxy_code_single_use_witness :
    aget exBody "code" = some "pc1" ∧ "pc1" ≠ ""
    ∧ aget exStore.codeToAuthorization "pc1" = some exPending
    ∧ truthy exPending.googleCode = true
    ∧ (aget (handleAuthorizationCodeGrant exBody cfg0 (.ok exTokens) 0
        exStore).2.codeToAuthorization "pc1" = none
      ∧ aget (handleAuthorizationCodeGrant exBody cfg0 (.ok exTokens) 0
          exStore).2.pendingAuthorizations exPending.chatgptState = none
      ∧ (handleAuthorizationCodeGrant exBody cfg0 (.err "bad") 1
          (handleAuthorizationCodeGrant exBody cfg0 (.ok exTokens) 0
            exStore).2).1
        = HResponse.json [("error", .str "invalid_grant")] 400) :=
  ⟨by decide, by decide, by decide, by decide,
   c2_proxy_code_single_use exStore cfg0 cfg0 exBody exBody "pc1" exPending
     exTokens (.err "bad") 0 1 (by decide) (by decide) (by decide)
     (by decide) (by decide)⟩

/-- C9: when the upstream code exchange fails, the token endpoint returns
400 `invalid_grant` with the upstream description, and the whole store —
both pending-authorization maps included — is left unchanged, so the same
proxy code still resolves to the same record. -/
theorem c9_failed_exchange_leaves_maps_unchanged (σ : Store)
    (cfg : OAuthConfig) (body : List (String × String)) (c msg : String)
    (p : PendingAuthorization) (now : Int)
    (hbody : aget body "code" = some c) (hc : c ≠ "")
    (hlook : aget σ.codeToAuthorization c = some p)
    (hg : truthy p.googleCode = true) :
    handleAuthorizationCodeGrant body cfg (.err msg) now σ
      = (HResponse.json [("error", .str "invalid_grant"),
          ("error_description", .str msg)] 400, σ) := by
  have ht : truthy (some c) = true := by simp [truthy, hc]
  simp [handleAuthorizationCodeGrant, hbody, ht, hlook, hg]

/-- C9 witness: a failed upstream exchange on the concrete post-callback
store. -/
theorem c9_failed_exchange_witness :
    aget exBody "code" = some "pc1" ∧ "pc1" ≠ ""
    ∧ aget exStore.codeToAuthorization "pc1" = some exPending
    ∧ truthy exPending.googleCode = true
    ∧ handleAuthorizationCodeGrant exBody cfg0 (.err "expired") 0 exStore
      = (HResponse.json [("error", .str "invalid_grant"),
          ("error_description", .str "expired")] 400, exStore) :=
  ⟨by decide, by decide, by decide, by decide,
   c9_failed_exchange_leaves_maps_unchanged exStore cfg0 exBody "pc1"
     "expired" exPending 0 (by decide) (by decide) (by decide) (by decide)⟩

/-- C10: a POST /token whose Content-Type is neither `application/json` nor
`application/x-www-form-urlencoded` (an absent header included) parses to
an empty body, so `grant_type` is undefined and the handler answers 400
`unsupported_grant_type` without touching any store. -/
theorem c10_unknown_content_type_unsupported (cfg : OAuthConfig)
    (contentType : Option String) (jsonBody formBody : List (String × String))
    (exc rexc : ExchangeResult) (now : Int) (σ : Store)
    (h1 : containsSub (contentType.getD "") "application/json" = false)
    (h2 : containsSub (contentType.getD "")
      "application/x-www-form-urlencoded" = false) :
    handleToken cfg contentType jsonBody formBody exc rexc now σ
      = (HResponse.json [("error", .str "unsupported_grant_type")] 400, σ) := by
  simp [handleToken, parseTokenBody, h1, h2, aget]

/-- C10 witness: a `text/plain` request with a well-formed body is still
rejected with `unsupported_grant_type`. -/
theorem c10_unknown_content_type_witness :
    containsSub ((some "text/plain").getD "") "application/json" = false
    ∧ containsSub ((some "text/plain").getD "")
        "application/x-www-form-urlencoded" = false
    ∧ handleToken cfg0 (some "text/plain") exBody exBody (.ok exTokens)
        (.ok exTokens) 0 exStore
      = (HResponse.json [("error", .str "unsupported_grant_type")] 400,
         exStore) :=
  ⟨by decide, by decide,
   c10_unknown_content_type_unsupported cfg0 (some "text/plain") exBody
     exBody (.ok exTokens) (.ok exTokens) 0 exStore (by decide) (by decide)⟩

/-- Fixture for the rotation claims: one stored token record under key
`t`. -/
def c3Rec : StoredTokenData :=
  { accessToken := "t", refreshToken := "r", expiresAt := 5, createdAt := 2 }

def c3TS : List (String × StoredTokenData) := [("t", c3Rec)]

/-- C3 counterexample: the claim asserts that after any
`updateAccessToken(oldToken, newToken, e)` a lookup by `oldToken` returns
nothing.  When the provider hands back the same token string
(`newToken = oldToken`), the record is deleted and reinserted under the
same key, so the lookup by `oldToken` still returns a record. -/
theorem c3_rotation_same_token_counterexample :
    getTokenData "t" c3TS = some c3Rec
    ∧ getTokenData "t" (updateAccessToken "t" "t" 3600 1000 c3TS)
        = some { accessToken := "t", refreshToken := "r",
                 expiresAt := 3601000, createdAt := 2 } := by
  decide

/-- C3 (amended with `newToken ≠ oldToken`): rotation preserves the refresh
material.  `updateAccessToken` keeps `refreshToken` and `createdAt`,
updates only `accessToken` and `expiresAt` (to `now + expiresInSeconds *
1000`), and afterwards the old key resolves to nothing while the new key
resolves to the migrated record. -/
theorem c3_rotation_preserves_refresh_material
    (ts : List (String × StoredTokenData)) (oldToken newToken : String)
    (expiresInSeconds now : Int) (d : StoredTokenData)
    (hne : newToken ≠ oldToken) (hlook : aget ts oldToken = some d) :
    aget (updateAccessToken oldToken newToken expiresInSeconds now ts)
      oldToken = none
    ∧ aget (updateAccessToken oldToken newToken expiresInSeconds now ts)
        newToken
      = some { accessToken := newToken, refreshToken := d.refreshToken,
               expiresAt := now + expiresInSeconds * 1000,
               createdAt := d.createdAt } := by
  unfold updateAccessToken
  rw [hlook]
  constructor
  · rw [aget_aset_ne _ _ (fun hc => hne hc.symm)]
    exact aget_adel_self _ _
  · exact aget_aset_self _ _ _

/-- C3 witness: rotating `t` to the distinct token `t2`. -/
theorem c3_rotation_witness :
    ("t2" : String) ≠ "t" ∧ aget c3TS "t" = some c3Rec
    ∧ (aget (updateAccessToken "t" "t2" 3600 1000 c3TS) "t" = none
       ∧ aget (updateAccessToken "t" "t2" 3600 1000 c3TS) "t2"
         = some { accessToken := "t2", refreshToken := "r",
                  expiresAt := 3601000, createdAt := 2 }) :=
  ⟨by decide, by decide,
   c3_rotation_preserves_refresh_material c3TS "t" "t2" 3600 1000 c3Rec
     (by decide) (by decide)⟩

/-- C4 counterexample: the claim promises the response
`'Invalid or expired state'` for every callback whose state is unknown, but
when the upstream provider also reports an `error` parameter the handler
answers with the `Authorization failed` page instead (still a 400 with no
store change). -/
theorem c4_unknown_state_counterexample :
    aget emptyStore.pendingAuthorizations "zz" = none
    ∧ (handleCallback (some "access_denied") (some "g123") (some "zz") "pc9"
        emptyStore).1
      = HResponse.text "Authorization failed: access_denied" 400
    ∧ (handleCallback (some "access_denied") (some "g123") (some "zz") "pc9"
        emptyStore).1
      ≠ HResponse.text "Invalid or expired state" 400 := by
  decide

/-- C4 (amended): every callback carrying a nonempty `state` that is not a
key of the pending-authorization map gets a 400 response and leaves the
whole store — all four maps — unchanged; when moreover no `error` parameter
is present and a nonempty `code` is present, the response body is exactly
`'Invalid or expired state'`. -/
theorem c4_unknown_state_rejected (error code : Option String)
    (s mintedCode : String) (σ : Store)
    (hs : s ≠ "") (hmiss : aget σ.pendingAuthorizations s = none) :
    (handleCallback error code (some s) mintedCode σ).2 = σ
    ∧ ((handleCallback error code (some s) mintedCode σ).1).status = 400
    ∧ (error = none → ∀ g, code = some g → g ≠ "" →
        (handleCallback error code (some s) mintedCode σ).1
          = HResponse.text "Invalid or expired state" 400) := by
  have hst : truthy (some s) = true := by simp [truthy, hs]
  by_cases he : truthy error = true
  · have hres : handleCallback error code (some s) mintedCode σ
        = (.text ("Authorization failed: " ++ error.getD "") 400, σ) := by
      simp [handleCallback, he]
    rw [hres]
    refine ⟨rfl, rfl, ?_⟩
    intro herr g hg hgne
    subst herr
    simp [truthy] at he
  · have he2 : truthy error = false := by
      revert he; cases truthy error <;> simp
    by_cases hco : truthy code = true
    · have hres : handleCallback error code (some s) mintedCode σ
          = (.text "Invalid or expired state" 400, σ) := by
        simp [handleCallback, he2, hco, hst, hmiss]
      rw [hres]
      exact ⟨rfl, rfl, fun _ g _ _ => rfl⟩
    · have hco2 : truthy code = false := by
        revert hco; cases truthy code <;> simp
      have hres : handleCallback error code (some s) mintedCode σ
          = (.text "Missing code or state" 400, σ) := by
        simp [handleCallback, he2, hco2]
      rw [hres]
      refine ⟨rfl, rfl, ?_⟩
      intro herr g hg hgne
      subst hg
      simp [truthy, hgne] at hco2

/-- C4 witness: unknown state `zz` on the empty store, no error parameter,
code present. -/
theorem c4_unknown_state_witness :
    ("zz" : String) ≠ ""
    ∧ aget emptyStore.pendingAuthorizations "zz" = none
    ∧ ((handleCallback none (some "g123") (some "zz") "pc9" emptyStore).2
        = emptyStore
      ∧ ((handleCallback none (some "g123") (some "zz") "pc9"
          emptyStore).1).status = 400
      ∧ (none = (none : Option String) → ∀ g, some "g123" = some g →
          g ≠ "" →
          (handleCallback none (some "g123") (some "zz") "pc9" emptyStore).1
            = HResponse.text "Invalid or expired state" 400)) :=
  ⟨by decide, by decide,
   c4_unknown_state_rejected none (some "g123") "zz" "pc9" emptyStore
     (by decide) (by decide)⟩

/-- Fixture for the retention-boundary claim: a record created at tick 2,
swept at `TOKEN_DATA_TTL_MS + 1`, has age one tick under the 30-day
window. -/
def c6Rec : StoredTokenData :=
  { accessToken := "a", refreshToken := "r", expiresAt := 0, createdAt := 2 }

def c6TS : List (String × StoredTokenData) := [("a", c6Rec)]

/-- C6: the 30-day retention boundary is strict for both the periodic sweep
and the startup load: a record is kept exactly when
`now - createdAt ≤ TOKEN_DATA_TTL_MS`, so an age of one tick under the
boundary is retained and one tick over is evicted. -/
theorem c6_thirty_day_retention_boundary (now : Int)
    (ts : List (String × StoredTokenData)) (k : String) (d : StoredTokenData)
    (h : aget ts k = some d) :
    (aget (sweepTokenStore now ts) k = some d
      ↔ now - d.createdAt ≤ TOKEN_DATA_TTL_MS)
    ∧ (aget (loadTokenStore now ts) k = some d
      ↔ now - d.createdAt ≤ TOKEN_DATA_TTL_MS)
    ∧ (now - d.createdAt = TOKEN_DATA_TTL_MS - 1 →
        aget (sweepTokenStore now ts) k = some d)
    ∧ (now - d.createdAt = TOKEN_DATA_TTL_MS + 1 →
        aget (sweepTokenStore now ts) k ≠ some d) := by
  have key : (aget (ts.filter (fun p =>
      decide (now - p.2.createdAt ≤ TOKEN_DATA_TTL_MS))) k = some d
      ↔ now - d.createdAt ≤ TOKEN_DATA_TTL_MS) := by
    constructor
    · intro hres
      exact of_decide_eq_true (aget_filter_some
        (fun v : StoredTokenData =>
          decide (now - v.createdAt ≤ TOKEN_DATA_TTL_MS)) hres)
    · intro hle
      exact aget_filter_of_aget
        (fun v : StoredTokenData =>
          decide (now - v.createdAt ≤ TOKEN_DATA_TTL_MS)) h
        (decide_eq_true hle)
  refine ⟨key, key, ?_, ?_⟩
  · intro hb
    exact key.mpr (by omega)
  · intro hb hcontra
    have := key.mp hcontra
    omega

/-- C6 witness: at sweep time `TOKEN_DATA_TTL_MS + 1` the record created at
tick 2 has age `TOKEN_DATA_TTL_MS - 1` and is retained. -/
theorem c6_thirty_day_retention_witness :
    aget c6TS "a" = some c6Rec
    ∧ ((aget (sweepTokenStore (TOKEN_DATA_TTL_MS + 1) c6TS) "a" = some c6Rec
        ↔ TOKEN_DATA_TTL_MS + 1 - c6Rec.createdAt ≤ TOKEN_DATA_TTL_MS)
      ∧ (aget (loadTokenStore (TOKEN_DATA_TTL_MS + 1) c6TS) "a" = some c6Rec
        ↔ TOKEN_DATA_TTL_MS + 1 - c6Rec.createdAt ≤ TOKEN_DATA_TTL_MS)
      ∧ (TOKEN_DATA_TTL_MS + 1 - c6Rec.createdAt = TOKEN_DATA_TTL_MS - 1 →
          aget (sweepTokenStore (TOKEN_DATA_TTL_MS + 1) c6TS) "a"
            = some c6Rec)
      ∧ (TOKEN_DATA_TTL_MS + 1 - c6Rec.createdAt = TOKEN_DATA_TTL_MS + 1 →
          aget (sweepTokenStore (TOKEN_DATA_TTL_MS + 1) c6TS) "a"
            ≠ some c6Rec)) :=
  ⟨by decide,
   c6_thirty_day_retention_boundary (TOKEN_DATA_TTL_MS + 1) c6TS "a" c6Rec
     (by decide)⟩

/-- C7: the authorization endpoint requires `redirect_uri` and `state`
(the falsy check also treats an empty string as absent): a missing
`redirect_uri` yields the 400 `missing_redirect_uri` error, a missing
`state` (with `redirect_uri` present) yields 400 `missing_state`, both with
no store change; with both present, exactly one pending authorization is
stored under the `state` key and a 302 redirect to the upstream provider
URL is returned. -/
theorem c7_authorize_contract (cfg : OAuthConfig)
    (redirectUri st cc ccm : Option String) (now : Int) (σ : Store) :
    (truthy redirectUri = false →
      handleAuthorize cfg redirectUri st cc ccm now σ
        = (HResponse.json [("error", .str "missing_redirect_uri")] 400, σ))
    ∧ (truthy redirectUri = true → truthy st = false →
      handleAuthorize cfg redirectUri st cc ccm now σ
        = (HResponse.json [("error", .str "missing_state")] 400, σ))
    ∧ (truthy redirectUri = true → truthy st = true →
      handleAuthorize cfg redirectUri st cc ccm now σ
        = (HResponse.redirect (googleAuthUrl cfg (st.getD "")),
           { σ with
              pendingAuthorizations :=
                aset σ.pendingAuthorizations (st.getD "")
                  (mkPendingAuthorization redirectUri st cc ccm now) })) := by
  refine ⟨?_, ?_, ?_⟩
  · intro h1
    simp [handleAuthorize, h1]
  · intro h1 h2
    simp [handleAuthorize, h1, h2]
  · intro h1 h2
    simp [handleAuthorize, h1, h2]

/-- C7 witness: a valid request stores the pending authorization and
redirects upstream. -/
theorem c7_authorize_witness :
    truthy (some "https://client.example/cb") = true
    ∧ truthy (some "s1") = true
    ∧ handleAuthorize cfg0 (some "https://client.example/cb") (some "s1")
        none none 0 emptyStore
      = (HResponse.redirect
          (googleAuthUrl cfg0 ((some "s1" : Option String).getD "")),
         { emptyStore with
            pendingAuthorizations :=
              aset emptyStore.pendingAuthorizations
                ((some "s1" : Option String).getD "")
                (mkPendingAuthorization (some "https://client.example/cb")
                  (some "s1") none none 0) }) :=
  ⟨by decide, by decide,
   (c7_authorize_contract cfg0 (some "https://client.example/cb")
     (some "s1") none none 0 emptyStore).2.2 (by decide) (by decide)⟩

/-- C8: client registration rejects a body whose `redirect_uris` is
missing, not an array, or an empty array with the 400
`invalid_request` / `redirect_uris required` error and stores nothing;
a non-empty array yields a 201 payload that echoes the submitted
`redirect_uris` exactly and carries `client_secret_expires_at = 0`. -/
theorem c8_registration_contract (body : List (String × JsonValue))
    (mintedClientId mintedSecret : String) (now : Int) (σ : Store) :
    ((∀ u us, aget body "redirect_uris" ≠ some (.arr (u :: us))) →
      handleClientRegistration (some body) mintedClientId mintedSecret now σ
        = (HResponse.json [("error", .str "invalid_request"),
            ("error_description", .str "redirect_uris required")] 400, σ))
    ∧ (∀ u us, aget body "redirect_uris" = some (.arr (u :: us)) →
        (handleClientRegistration (some body) mintedClientId mintedSecret
          now σ).1
          = HResponse.json (registrationPayload mintedClientId mintedSecret
              now (u :: us) (aget body "client_name")) 201
        ∧ aget (registrationPayload mintedClientId mintedSecret now (u :: us)
            (aget body "client_name")) "redirect_uris"
          = some (.arr (u :: us))
        ∧ aget (registrationPayload mintedClientId mintedSecret now (u :: us)
            (aget body "client_name")) "client_secret_expires_at"
          = some (.num 0)
        ∧ (handleClientRegistration (some body) mintedClientId mintedSecret
            now σ).2
          = { σ with
                registeredClients :=
                  aset σ.registeredClients mintedClientId
                    { client_id := mintedClientId,
                      client_secret := mintedSecret,
                      redirect_uris := u :: us,
                      client_name := aget body "client_name",
                      created_at := now } }) := by
  constructor
  · intro hrej
    cases hv : aget body "redirect_uris" with
    | none => simp [handleClientRegistration, hv]
    | some v =>
      cases v with
      | str s2 => simp [handleClientRegistration, hv]
      | num n => simp [handleClientRegistration, hv]
      | bool b => simp [handleClientRegistration, hv]
      | null => simp [handleClientRegistration, hv]
      | arr xs =>
        cases xs with
        | nil => simp [handleClientRegistration, hv]
        | cons u us => exact absurd hv (hrej u us)
  · intro u us hv
    refine ⟨?_, ?_, ?_, ?_⟩
    · simp [handleClientRegistration, hv]
    · rfl
    · rfl
    · simp [handleClientRegistration, hv]

/-- C8 witness: registering with `redirect_uris = ["https://x/cb"]`. -/
theorem c8_registration_witness :
    aget [(("redirect_uris" : String), JsonValue.arr ["https://x/cb"])]
      "redirect_uris" = some (.arr ("https://x/cb" :: []))
    ∧ ((handleClientRegistration
        (some [("redirect_uris", JsonValue.arr ["https://x/cb"])])
        "cid1" "sec1" 0 emptyStore).1
        = HResponse.json (registrationPayload "cid1" "sec1" 0
            ("https://x/cb" :: [])
            (aget [(("redirect_uris" : String),
              JsonValue.arr ["https://x/cb"])] "client_name")) 201
      ∧ aget (registrationPayload "cid1" "sec1" 0 ("https://x/cb" :: [])
          (aget [(("redirect_uris" : String),
            JsonValue.arr ["https://x/cb"])] "client_name")) "redirect_uris"
        = some (.arr ("https://x/cb" :: []))
      ∧ aget (registrationPayload "cid1" "sec1" 0 ("https://x/cb" :: [])
          (aget [(("redirect_uris" : String),
            JsonValue.arr ["https://x/cb"])] "client_name"))
          "client_secret_expires_at"
        = some (.num 0)
      ∧ (handleClientRegistration
          (some [("redirect_uris", JsonValue.arr ["https://x/cb"])])
          "cid1" "sec1" 0 emptyStore).2
        = { emptyStore with
              registeredClients :=
                aset emptyStore.registeredClients "cid1"
                  { client_id := "cid1", client_secret := "sec1",
                    redirect_uris := "https://x/cb" :: [],
                    client_name := aget [(("redirect_uris" : String),
                      JsonValue.arr ["https://x/cb"])] "client_name",
                    created_at := 0 } }) :=
  ⟨by decide,
   (c8_registration_contract
     [("redirect_uris", JsonValue.arr ["https://x/cb"])] "cid1" "sec1" 0
     emptyStore).2 "https://x/cb" [] (by decide)⟩

/-- The store after a valid `/authorize` for state `s1`. -/
def c5Store1 : Store :=
  (handleAuthorize cfg0 (some "https://client.example/cb") (some "s1") none
    none 0 emptyStore).2

/-- The store after the upstream callback for `s1` minted proxy code
`pc1`. -/
def c5Store2 : Store :=
  (handleCallback none (some "gc1") (some "s1") "pc1" c5Store1).2

/-- C5 counterexample: in the reachable store right after the callback, the
same pending authorization is reachable through BOTH key spaces at once —
the state key `s1` and the proxy-code key `pc1` — refuting the "at most one
key space" half of the claim.  (Both keys do resolve to the same record,
which is the half that survives as the amended claim.) -/
theorem c5_both_key_spaces_counterexample :
    Reachable c5Store2
    ∧ aget c5Store2.pendingAuthorizations "s1" = some exPending
    ∧ aget c5Store2.codeToAuthorization "pc1" = some exPending := by
  refine ⟨?_, by decide, by decide⟩
  exact Reachable.step
    (Reachable.step Reachable.init
      (Step.authorize cfg0 (some "https://client.example/cb") (some "s1")
        none none 0 emptyStore))
    (Step.callback none (some "gc1") (some "s1") "pc1" c5Store1 (by decide))

/-- C5 (amended): in every store reachable from the empty state by
authorize, callback (with a freshly minted proxy code), and token steps,
whenever a state key and a proxy-code key refer to the same authorization
attempt — the pending record under the state key carries that proxy code —
the two maps resolve to the same record.  (Between callback and token
exchange the record is deliberately reachable through both key spaces, not
at most one.) -/
theorem c5_dual_key_coherence (σ : Store) (hreach : Reachable σ)
    (s : String) (p : PendingAuthorization) (c : String)
    (q : PendingAuthorization)
    (hp : aget σ.pendingAuthorizations s = some p)
    (hc : p.ourCode = some c)
    (hq : aget σ.codeToAuthorization c = some q) :
    q = p := by
  have hinv := storeInv_reachable hreach
  have hcode := hinv.2 s p c hp hc
  rw [hcode] at hq
  injection hq with h
  exact h.symm

/-- C5 witness: the two keys of the concrete post-callback store resolve to
the same record. -/
theorem c5_dual_key_coherence_witness :
    aget c5Store2.pendingAuthorizations "s1" = some exPending
    ∧ exPending.ourCode = some "pc1"
    ∧ aget c5Store2.codeToAuthorization "pc1" = some exPending
    ∧ exPending = exPending :=
  ⟨by decide, by decide, by decide,
   c5_dual_key_coherence c5Store2
     (Reachable.step
       (Reachable.step Reachable.init
         (Step.authorize cfg0 (some "https://client.example/cb") (some "s1")
           none none 0 emptyStore))
       (Step.callback none (some "gc1") (some "s1") "pc1" c5Store1
         (by decide)))
     "s1" exPending "pc1" exPending (by decide) (by decide) (by decide)⟩

end GTasks
